import Mathlib

/-!
Verification of SwitchPrimaryMonitor (src/main.cpp).

The program enumerates the displays attached to the desktop, selects the
circular successor of the current primary in enumeration order, rebases all
positions so the new primary sits at (0,0), stages one write per device and
issues one final apply call.  We embed the program shallowly:

* `Devmode` models DEVMODEW: a position (LONG x/y, modelled as 32-bit
  wraparound integers via `wrap32`), the `dmFields` mask, and `rest` for all
  remaining members (resolution, orientation, refresh rate, ...).
* `EnumerateDisplays` consumes the list of devices that the OS enumeration
  would yield (`RawDevice`, whose `settings` is `none` when the
  EnumDisplaySettingsExW read fails).
* The OS write service is an `Env`: `writeRes k` is the LONG result of the
  k-th per-device ChangeDisplaySettingsExW call of the run and `applyRes` the
  result of the final apply call.
* A run produces a `RunResult`: the process exit code, the ordered trace of
  per-device write calls issued, and whether the final apply was invoked.
-/

/-- Windows LONG arithmetic: normalize into the 32-bit signed range
[-2^31, 2^31). -/
def wrap32 (z : Int) : Int := (z + 2147483648) % 4294967296 - 2147483648

/-- dmPosition: integer (x, y) top-left corner in virtual-desktop
coordinates. -/
structure Point where
  x : Int
  y : Int
  deriving DecidableEq, Repr, Inhabited

/-- DEVMODEW: the settings of one display.  `dmFields` is the field mask
(`DM_POSITION` is the bit 0x20); `rest` abstracts every other member
(resolution, orientation, refresh rate, ...). -/
structure Devmode where
  position : Point
  dmFields : Nat
  rest : Nat
  deriving DecidableEq, Repr, Inhabited

/-- The `Display` struct of main.cpp: device identity (DeviceName, opaque),
its current settings, and the primary flag derived from StateFlags. -/
structure Display where
  name : Nat
  dm : Devmode
  isPrimary : Bool
  deriving DecidableEq, Repr, Inhabited

def DISPLAY_DEVICE_ATTACHED_TO_DESKTOP : Nat := 1
def DISPLAY_DEVICE_PRIMARY_DEVICE : Nat := 4
def DISPLAY_DEVICE_MIRRORING_DRIVER : Nat := 8
def DM_POSITION : Nat := 32
def DISP_CHANGE_SUCCESSFUL : Int := 0

/-- One entry of the OS device enumeration (EnumDisplayDevicesW result):
DeviceName, StateFlags, and the outcome of reading its current settings with
EnumDisplaySettingsExW (`none` models a failed read). -/
structure RawDevice where
  name : Nat
  stateFlags : Nat
  settings : Option Devmode
  deriving DecidableEq, Repr, Inhabited

/-- main.cpp:33-60.  Walks the enumeration: devices not attached to the
desktop and mirroring drivers are skipped; a failed settings read skips the
device (a diagnostic is printed, not modelled) and enumeration continues. -/
def EnumerateDisplays : List RawDevice → List Display
  | [] => []
  | d :: restDevs =>
    if d.stateFlags &&& DISPLAY_DEVICE_ATTACHED_TO_DESKTOP == 0 then
      EnumerateDisplays restDevs
    else if d.stateFlags &&& DISPLAY_DEVICE_MIRRORING_DRIVER != 0 then
      EnumerateDisplays restDevs
    else
      match d.settings with
      | none => EnumerateDisplays restDevs
      | some dm =>
        { name := d.name, dm := dm,
          isPrimary := d.stateFlags &&& DISPLAY_DEVICE_PRIMARY_DEVICE != 0 }
          :: EnumerateDisplays restDevs

/-- The device filter of the enumeration loop, as one predicate: attached to
the desktop, not a mirroring driver, settings readable. -/
def keptDevice (d : RawDevice) : Bool :=
  (d.stateFlags &&& DISPLAY_DEVICE_ATTACHED_TO_DESKTOP != 0) &&
  (d.stateFlags &&& DISPLAY_DEVICE_MIRRORING_DRIVER == 0) &&
  d.settings.isSome

/-- The `Display` built from a kept raw device. -/
def toDisplay (d : RawDevice) : Display :=
  { name := d.name, dm := d.settings.getD default,
    isPrimary := d.stateFlags &&& DISPLAY_DEVICE_PRIMARY_DEVICE != 0 }

/-- One ChangeDisplaySettingsExW call issued for a device.  The Booleans
record the flags argument: CDS_SET_PRIMARY, CDS_UPDATEREGISTRY,
CDS_NORESET. -/
structure WriteCall where
  device : Nat
  dm : Devmode
  setPrimary : Bool
  updateRegistry : Bool
  noReset : Bool
  deriving DecidableEq, Repr, Inhabited

/-- OS responses to the configuration writes: `writeRes k` is the result of
the k-th per-device write call of the run (0 is the target's), `applyRes`
that of the final no-device apply call. -/
structure Env where
  writeRes : Nat → Int
  applyRes : Int

/-- Observable outcome of a run: process exit code, the ordered trace of
per-device write calls issued, and whether the final apply call happened. -/
structure RunResult where
  exitCode : Nat
  writes : List WriteCall
  applyInvoked : Bool
  deriving Repr

/-- The staged write for display `d`: a copy of its snapshot DEVMODEW with
`dmFields |= DM_POSITION` and the position moved by (offX, offY) in LONG
arithmetic (main.cpp:92-96 and 111-115). -/
def stagedCall (setPrim : Bool) (d : Display) (offX offY : Int) : WriteCall :=
  { device := d.name,
    dm := { d.dm with
            dmFields := d.dm.dmFields ||| DM_POSITION,
            position := { x := wrap32 (d.dm.position.x + offX),
                          y := wrap32 (d.dm.position.y + offY) } },
    setPrimary := setPrim, updateRegistry := true, noReset := true }

/-- The `for` loop at main.cpp:71-74: index of the first display whose
isPrimary flag is set, if any. -/
def currentPrimaryIdx : List Display → Option Nat
  | [] => none
  | d :: restDisp =>
    if d.isPrimary then some 0 else (currentPrimaryIdx restDisp).map (· + 1)

/-- The loop at main.cpp:108-123, iterating index `i` over the remaining
suffix of the displays, skipping `t` (the target index): each non-target
display gets a repositioning write; a failing write aborts with code 4; after
the loop the final apply call runs (code 5 on failure, else 0).  `k` counts
the write calls already issued. -/
def writeOthersAux (env : Env) (t : Nat) (offX offY : Int) :
    List Display → Nat → Nat → List WriteCall → RunResult
  | [], _, _, acc =>
    if env.applyRes ≠ DISP_CHANGE_SUCCESSFUL then
      { exitCode := 5, writes := acc, applyInvoked := true }
    else
      { exitCode := 0, writes := acc, applyInvoked := true }
  | d :: restDisp, i, k, acc =>
    if i = t then writeOthersAux env t offX offY restDisp (i + 1) k acc
    else
      if env.writeRes k ≠ DISP_CHANGE_SUCCESSFUL then
        { exitCode := 4, writes := acc ++ [stagedCall false d offX offY],
          applyInvoked := false }
      else
        writeOthersAux env t offX offY restDisp (i + 1) (k + 1)
          (acc ++ [stagedCall false d offX offY])

/-- SwitchPrimaryToNext (main.cpp:62-134) after the enumeration: abort 1 on
an empty topology, abort 2 when no primary is found, succeed without writes
when only one display is attached; otherwise write the target (circular
successor of the primary) with CDS_SET_PRIMARY at the rebased origin (abort 3
on failure), then reposition the others, then apply. -/
def SwitchPrimaryToNext (displays : List Display) (env : Env) : RunResult :=
  if displays.isEmpty then { exitCode := 1, writes := [], applyInvoked := false }
  else
    match currentPrimaryIdx displays with
    | none => { exitCode := 2, writes := [], applyInvoked := false }
    | some currentPrimary =>
      if displays.length = 1 then
        { exitCode := 0, writes := [], applyInvoked := false }
      else
        let targetIndex := (currentPrimary + 1) % displays.length
        let target := displays.getD targetIndex default
        let offsetX := wrap32 (-target.dm.position.x)
        let offsetY := wrap32 (-target.dm.position.y)
        let tcall := stagedCall true target offsetX offsetY
        if env.writeRes 0 ≠ DISP_CHANGE_SUCCESSFUL then
          { exitCode := 3, writes := [tcall], applyInvoked := false }
        else
          writeOthersAux env targetIndex offsetX offsetY displays 0 1 [tcall]

/-- wWinMain (main.cpp:146-149): enumerate, then switch; the return value is
the process exit status. -/
def wWinMain (raw : List RawDevice) (env : Env) : RunResult :=
  SwitchPrimaryToNext (EnumerateDisplays raw) env

/-- The repositioning calls the loop at main.cpp:108-123 would issue for the
suffix `l` whose first element has index `i`, skipping the target index
`t`. -/
def plannedMoves (t : Nat) (offX offY : Int) : List Display → Nat → List WriteCall
  | [], _ => []
  | d :: restDisp, i =>
    if i = t then plannedMoves t offX offY restDisp (i + 1)
    else stagedCall false d offX offY :: plannedMoves t offX offY restDisp (i + 1)

/-- Target index selected when the primary search found index `p`. -/
def nextIdx (displays : List Display) (p : Nat) : Nat := (p + 1) % displays.length

/-- The display selected to become primary. -/
def theTarget (displays : List Display) (p : Nat) : Display :=
  displays.getD (nextIdx displays p) default

/-- Rebasing offset, x component. -/
def offsX (displays : List Display) (p : Nat) : Int :=
  wrap32 (-(theTarget displays p).dm.position.x)

/-- Rebasing offset, y component. -/
def offsY (displays : List Display) (p : Nat) : Int :=
  wrap32 (-(theTarget displays p).dm.position.y)

/-- The CDS_SET_PRIMARY write staged for the target. -/
def targetCall (displays : List Display) (p : Nat) : WriteCall :=
  stagedCall true (theTarget displays p) (offsX displays p) (offsY displays p)

/-- The repositioning writes for the non-target displays, in enumeration
order. -/
def moveCalls (displays : List Display) (p : Nat) : List WriteCall :=
  (displays.eraseIdx (nextIdx displays p)).map
    (fun d => stagedCall false d (offsX displays p) (offsY displays p))


/-! ### Concrete inputs used in witnesses and counterexamples
(the three-monitor layout is the worked example of the design: A at the
origin and primary, B to its right, C to its left). -/

def exA : Display :=
  { name := 10, dm := { position := { x := 0, y := 0 }, dmFields := 32, rest := 5 },
    isPrimary := true }

def exB : Display :=
  { name := 11, dm := { position := { x := 1920, y := 0 }, dmFields := 32, rest := 6 },
    isPrimary := false }

def exC : Display :=
  { name := 12, dm := { position := { x := -1920, y := 0 }, dmFields := 32, rest := 7 },
    isPrimary := false }

/-- A second display with the primary flag also set (invariant violation). -/
def exD : Display :=
  { name := 13, dm := { position := { x := 500, y := 300 }, dmFields := 32, rest := 8 },
    isPrimary := true }

/-- A display whose snapshot field mask does not yet contain DM_POSITION. -/
def exZ : Display :=
  { name := 14, dm := { position := { x := 100, y := 200 }, dmFields := 0, rest := 9 },
    isPrimary := false }

/-- Every service call succeeds. -/
def envOK : Env := { writeRes := fun _ => 0, applyRes := 0 }

/-- The first (target) write fails. -/
def envFail0 : Env := { writeRes := fun _ => 7, applyRes := 0 }

/-- The third per-device write (second non-target one) fails. -/
def envFailAt2 : Env := { writeRes := fun k => if k < 2 then 0 else 7, applyRes := 0 }

/-! ### Arithmetic facts about 32-bit wraparound -/

theorem wrap32_add_neg_self (x : Int) : wrap32 (x + wrap32 (-x)) = 0 := by
  unfold wrap32; omega

theorem wrap32_add_wrap (a b : Int) : wrap32 (a + wrap32 b) = wrap32 (a + b) := by
  unfold wrap32; omega

theorem wrap32_sub_of_shift (a b o : Int) :
    wrap32 (wrap32 (a + o) - wrap32 (b + o)) = wrap32 (a - b) := by
  unfold wrap32; omega

/-! ### The primary-search loop -/

theorem currentPrimaryIdx_of_unique (l : List Display) :
    ∀ p : Nat, p < l.length → (l.getD p default).isPrimary = true →
    (∀ j, j < l.length → (l.getD j default).isPrimary = true → j = p) →
    currentPrimaryIdx l = some p := by
  induction l with
  | nil => intro p hp _ _; simp at hp
  | cons d restDisp ih =>
    intro p hp hprim huniq
    by_cases hd : d.isPrimary
    · have h0 : (0 : Nat) = p := huniq 0 (by simp) (by simpa using hd)
      simp [currentPrimaryIdx, hd, ← h0]
    · match p with
      | 0 =>
        rw [List.getD_cons_zero] at hprim
        exact absurd hprim hd
      | p' + 1 =>
        have hlen : p' < restDisp.length := by
          simpa [Nat.succ_lt_succ_iff] using hp
        have hprim' : (restDisp.getD p' default).isPrimary = true := by
          simpa using hprim
        have huniq' : ∀ j, j < restDisp.length →
            (restDisp.getD j default).isPrimary = true → j = p' := by
          intro j hj hjp
          have := huniq (j + 1) (by simpa [Nat.succ_lt_succ_iff] using hj)
            (by simpa using hjp)
          omega
        simp [currentPrimaryIdx, hd, ih p' hlen hprim' huniq']

theorem currentPrimaryIdx_spec (l : List Display) :
    ∀ p : Nat, currentPrimaryIdx l = some p →
    p < l.length ∧ (l.getD p default).isPrimary = true ∧
    ∀ q, q < p → (l.getD q default).isPrimary = false := by
  induction l with
  | nil => intro p h; simp [currentPrimaryIdx] at h
  | cons d restDisp ih =>
    intro p h
    by_cases hd : d.isPrimary
    · rw [currentPrimaryIdx, if_pos hd] at h
      obtain rfl : (0 : Nat) = p := by exact Option.some.inj h
      refine ⟨by simp, by simpa using hd, ?_⟩
      intro q hq; omega
    · rw [currentPrimaryIdx, if_neg hd] at h
      obtain ⟨p', hp', rfl⟩ := Option.map_eq_some'.mp h
      obtain ⟨hlen, hprim, hless⟩ := ih p' hp'
      refine ⟨by simpa [Nat.succ_lt_succ_iff] using hlen, by simpa using hprim, ?_⟩
      intro q hq
      match q with
      | 0 =>
        rw [List.getD_cons_zero]
        exact Bool.not_eq_true _ ▸ (by simpa using hd)
      | q' + 1 =>
        rw [List.getD_cons_succ]
        exact hless q' (by omega)

theorem currentPrimaryIdx_le (l : List Display) :
    ∀ i : Nat, i < l.length → (l.getD i default).isPrimary = true →
    ∃ p, currentPrimaryIdx l = some p ∧ p ≤ i := by
  induction l with
  | nil => intro i hi _; simp at hi
  | cons d restDisp ih =>
    intro i hi hp
    by_cases hd : d.isPrimary
    · exact ⟨0, by simp [currentPrimaryIdx, hd], Nat.zero_le i⟩
    · match i with
      | 0 =>
        rw [List.getD_cons_zero] at hp
        exact absurd hp hd
      | i' + 1 =>
        obtain ⟨p', hp', hle⟩ := ih i' (by simpa [Nat.succ_lt_succ_iff] using hi)
          (by simpa using hp)
        exact ⟨p' + 1, by simp [currentPrimaryIdx, hd, hp'], by omega⟩

/-! ### Generic list facts -/

theorem getD_mem_of_lt {α : Type} [Inhabited α] :
    ∀ (l : List α) (n : Nat), n < l.length → l.getD n default ∈ l := by
  intro l
  induction l with
  | nil => intro n hn; simp at hn
  | cons a restL ih =>
    intro n hn
    match n with
    | 0 => simp
    | n' + 1 =>
      rw [List.getD_cons_succ]
      exact List.mem_cons_of_mem a (ih n' (by simpa [Nat.succ_lt_succ_iff] using hn))

/-! ### The repositioning loop -/

theorem plannedMoves_eq_eraseIdx (t : Nat) (offX offY : Int) :
    ∀ (l : List Display) (i : Nat),
    plannedMoves t offX offY l i =
      (if t < i then l else l.eraseIdx (t - i)).map
        (fun d => stagedCall false d offX offY) := by
  intro l
  induction l with
  | nil => intro i; by_cases h : t < i <;> simp [plannedMoves, h]
  | cons d restDisp ih =>
    intro i
    by_cases hit : i = t
    · subst hit
      rw [plannedMoves, if_pos rfl, ih (i + 1)]
      have h1 : ¬ i < i := Nat.lt_irrefl i
      have h2 : i < i + 1 := Nat.lt_succ_self i
      have h3 : i - i = 0 := Nat.sub_self i
      simp [h1, h2, h3, List.eraseIdx_cons_zero]
    · rw [plannedMoves, if_neg hit, ih (i + 1)]
      by_cases hlt : t < i
      · have h1 : t < i + 1 := Nat.lt_succ_of_lt hlt
        simp [hlt, h1]
      · have hgt : i < t := Nat.lt_of_le_of_ne (Nat.le_of_not_lt hlt) hit
        have h1 : ¬ t < i + 1 := by omega
        obtain ⟨m, rfl⟩ : ∃ m, t = i + m + 1 := ⟨t - i - 1, by omega⟩
        have h2 : i + m + 1 - i = m + 1 := by omega
        have h3 : i + m + 1 - (i + 1) = m := by omega
        simp [hlt, h1, h2, h3, List.eraseIdx_cons_succ]

theorem plannedMoves_mem (t : Nat) (offX offY : Int) :
    ∀ (l : List Display) (i : Nat) (c : WriteCall),
    c ∈ plannedMoves t offX offY l i →
    ∃ d, d ∈ l ∧ c = stagedCall false d offX offY := by
  intro l
  induction l with
  | nil => intro i c hc; simp [plannedMoves] at hc
  | cons d restDisp ih =>
    intro i c hc
    by_cases hit : i = t
    · rw [plannedMoves, if_pos hit] at hc
      obtain ⟨d', hd', hcd⟩ := ih (i + 1) c hc
      exact ⟨d', List.mem_cons_of_mem d hd', hcd⟩
    · rw [plannedMoves, if_neg hit] at hc
      rcases List.mem_cons.mp hc with h | h
      · exact ⟨d, List.mem_cons_self d restDisp, h⟩
      · obtain ⟨d', hd', hcd⟩ := ih (i + 1) c h
        exact ⟨d', List.mem_cons_of_mem d hd', hcd⟩

theorem writeOthersAux_success (env : Env) (t : Nat) (offX offY : Int) :
    ∀ (l : List Display) (i k : Nat) (acc : List WriteCall),
    (∀ j, j < (plannedMoves t offX offY l i).length →
      env.writeRes (k + j) = DISP_CHANGE_SUCCESSFUL) →
    writeOthersAux env t offX offY l i k acc =
      { exitCode := if env.applyRes ≠ DISP_CHANGE_SUCCESSFUL then 5 else 0,
        writes := acc ++ plannedMoves t offX offY l i,
        applyInvoked := true } := by
  intro l
  induction l with
  | nil =>
    intro i k acc _
    by_cases h : env.applyRes ≠ DISP_CHANGE_SUCCESSFUL <;>
      simp [writeOthersAux, plannedMoves, h]
  | cons d restDisp ih =>
    intro i k acc h
    by_cases hit : i = t
    · rw [writeOthersAux, if_pos hit]
      rw [plannedMoves, if_pos hit] at h ⊢
      exact ih (i + 1) k acc h
    · rw [plannedMoves, if_neg hit] at h ⊢
      have h0 : env.writeRes k = DISP_CHANGE_SUCCESSFUL := by
        have := h 0 (by simp)
        simpa using this
      have hstep : ∀ j, j < (plannedMoves t offX offY restDisp (i + 1)).length →
          env.writeRes (k + 1 + j) = DISP_CHANGE_SUCCESSFUL := by
        intro j hj
        have := h (j + 1) (by simp; omega)
        have harith : k + (j + 1) = k + 1 + j := by omega
        rwa [harith] at this
      rw [writeOthersAux, if_neg hit, if_neg (by simp [h0])]
      rw [ih (i + 1) (k + 1) (acc ++ [stagedCall false d offX offY]) hstep]
      simp

theorem writeOthersAux_fail (env : Env) (t : Nat) (offX offY : Int) :
    ∀ (l : List Display) (i k f : Nat) (acc : List WriteCall),
    f < (plannedMoves t offX offY l i).length →
    (∀ j, j < f → env.writeRes (k + j) = DISP_CHANGE_SUCCESSFUL) →
    env.writeRes (k + f) ≠ DISP_CHANGE_SUCCESSFUL →
    writeOthersAux env t offX offY l i k acc =
      { exitCode := 4,
        writes := acc ++ (plannedMoves t offX offY l i).take (f + 1),
        applyInvoked := false } := by
  intro l
  induction l with
  | nil => intro i k f acc hf _ _; simp [plannedMoves] at hf
  | cons d restDisp ih =>
    intro i k f acc hf hok hfail
    by_cases hit : i = t
    · rw [writeOthersAux, if_pos hit]
      rw [plannedMoves, if_pos hit] at hf ⊢
      exact ih (i + 1) k f acc hf hok hfail
    · rw [plannedMoves, if_neg hit] at hf ⊢
      match f with
      | 0 =>
        have hfail0 : env.writeRes k ≠ DISP_CHANGE_SUCCESSFUL := by
          simpa using hfail
        rw [writeOthersAux, if_neg hit, if_pos hfail0]
        simp
      | f' + 1 =>
        have h0 : env.writeRes k = DISP_CHANGE_SUCCESSFUL := by
          have := hok 0 (by omega)
          simpa using this
        have hok' : ∀ j, j < f' → env.writeRes (k + 1 + j) = DISP_CHANGE_SUCCESSFUL := by
          intro j hj
          have := hok (j + 1) (by omega)
          have harith : k + (j + 1) = k + 1 + j := by omega
          rwa [harith] at this
        have hfail' : env.writeRes (k + 1 + f') ≠ DISP_CHANGE_SUCCESSFUL := by
          have harith : k + (f' + 1) = k + 1 + f' := by omega
          rwa [harith] at hfail
        have hf' : f' < (plannedMoves t offX offY restDisp (i + 1)).length := by
          simpa [Nat.succ_lt_succ_iff] using hf
        rw [writeOthersAux, if_neg hit, if_neg (by simp [h0])]
        rw [ih (i + 1) (k + 1) f' (acc ++ [stagedCall false d offX offY]) hf' hok' hfail']
        simp

theorem writeOthersAux_writes_take (env : Env) (t : Nat) (offX offY : Int) :
    ∀ (l : List Display) (i k : Nat) (acc : List WriteCall),
    ∃ n, (writeOthersAux env t offX offY l i k acc).writes =
      acc ++ (plannedMoves t offX offY l i).take n := by
  intro l
  induction l with
  | nil =>
    intro i k acc
    refine ⟨0, ?_⟩
    by_cases h : env.applyRes ≠ DISP_CHANGE_SUCCESSFUL <;>
      simp [writeOthersAux, h]
  | cons d restDisp ih =>
    intro i k acc
    by_cases hit : i = t
    · rw [writeOthersAux, if_pos hit, plannedMoves, if_pos hit]
      exact ih (i + 1) k acc
    · rw [writeOthersAux, if_neg hit, plannedMoves, if_neg hit]
      by_cases hw : env.writeRes k ≠ DISP_CHANGE_SUCCESSFUL
      · rw [if_pos hw]
        exact ⟨1, by simp⟩
      · rw [if_neg hw]
        obtain ⟨n, hn⟩ := ih (i + 1) (k + 1) (acc ++ [stagedCall false d offX offY])
        exact ⟨n + 1, by simp [hn]⟩

theorem writeOthersAux_exit (env : Env) (t : Nat) (offX offY : Int) :
    ∀ (l : List Display) (i k : Nat) (acc : List WriteCall),
    (writeOthersAux env t offX offY l i k acc).exitCode = 0 ∨
    (writeOthersAux env t offX offY l i k acc).exitCode = 4 ∨
    (writeOthersAux env t offX offY l i k acc).exitCode = 5 := by
  intro l
  induction l with
  | nil =>
    intro i k acc
    by_cases h : env.applyRes ≠ DISP_CHANGE_SUCCESSFUL <;>
      simp [writeOthersAux, h]
  | cons d restDisp ih =>
    intro i k acc
    by_cases hit : i = t
    · rw [writeOthersAux, if_pos hit]
      exact ih (i + 1) k acc
    · rw [writeOthersAux, if_neg hit]
      by_cases hw : env.writeRes k ≠ DISP_CHANGE_SUCCESSFUL
      · rw [if_pos hw]; simp
      · rw [if_neg hw]
        exact ih (i + 1) (k + 1) (acc ++ [stagedCall false d offX offY])

theorem run_unfold (displays : List Display) (env : Env) (p : Nat)
    (hp : currentPrimaryIdx displays = some p) (hN : 2 ≤ displays.length) :
    SwitchPrimaryToNext displays env =
      if env.writeRes 0 ≠ DISP_CHANGE_SUCCESSFUL then
        { exitCode := 3, writes := [targetCall displays p], applyInvoked := false }
      else
        writeOthersAux env (nextIdx displays p) (offsX displays p) (offsY displays p)
          displays 0 1 [targetCall displays p] := by
  have hne : displays.isEmpty = false := by
    cases displays with
    | nil => simp at hN
    | cons a l => simp
  have hlen : ¬ displays.length = 1 := by omega
  simp [SwitchPrimaryToNext, hne, hp, hlen, nextIdx, theTarget, offsX, offsY, targetCall]

theorem nextIdx_lt (displays : List Display) (p : Nat) (hN : 2 ≤ displays.length) :
    nextIdx displays p < displays.length :=
  Nat.mod_lt _ (by omega)

theorem plannedMoves_from_zero (displays : List Display) (p : Nat) :
    plannedMoves (nextIdx displays p) (offsX displays p) (offsY displays p) displays 0 =
      moveCalls displays p := by
  rw [plannedMoves_eq_eraseIdx]
  simp [moveCalls]

theorem moveCalls_length (displays : List Display) (p : Nat) (hN : 2 ≤ displays.length) :
    (moveCalls displays p).length = displays.length - 1 := by
  rw [moveCalls, List.length_map, List.length_eraseIdx,
    if_pos (nextIdx_lt displays p hN)]

theorem run_success_trace (displays : List Display) (env : Env) (p : Nat)
    (hp : currentPrimaryIdx displays = some p) (hN : 2 ≤ displays.length)
    (hw : ∀ k, k < displays.length → env.writeRes k = DISP_CHANGE_SUCCESSFUL) :
    SwitchPrimaryToNext displays env =
      { exitCode := if env.applyRes ≠ DISP_CHANGE_SUCCESSFUL then 5 else 0,
        writes := targetCall displays p :: moveCalls displays p,
        applyInvoked := true } := by
  rw [run_unfold displays env p hp hN, if_neg (by simp [hw 0 (by omega)])]
  rw [writeOthersAux_success env (nextIdx displays p) (offsX displays p)
    (offsY displays p) displays 0 1 [targetCall displays p] ?_]
  · rw [plannedMoves_from_zero]
    simp
  · intro j hj
    rw [plannedMoves_from_zero, moveCalls_length displays p hN] at hj
    exact hw (1 + j) (by omega)

theorem run_fail3_trace (displays : List Display) (env : Env) (p : Nat)
    (hp : currentPrimaryIdx displays = some p) (hN : 2 ≤ displays.length)
    (hfail : env.writeRes 0 ≠ DISP_CHANGE_SUCCESSFUL) :
    SwitchPrimaryToNext displays env =
      { exitCode := 3, writes := [targetCall displays p], applyInvoked := false } := by
  rw [run_unfold displays env p hp hN, if_pos hfail]

theorem run_fail4_trace (displays : List Display) (env : Env) (p f : Nat)
    (hp : currentPrimaryIdx displays = some p) (hN : 2 ≤ displays.length)
    (h0 : env.writeRes 0 = DISP_CHANGE_SUCCESSFUL)
    (hf : f < displays.length - 1)
    (hok : ∀ j, j < f → env.writeRes (1 + j) = DISP_CHANGE_SUCCESSFUL)
    (hfail : env.writeRes (1 + f) ≠ DISP_CHANGE_SUCCESSFUL) :
    SwitchPrimaryToNext displays env =
      { exitCode := 4,
        writes := targetCall displays p :: (moveCalls displays p).take (f + 1),
        applyInvoked := false } := by
  rw [run_unfold displays env p hp hN, if_neg (by simp [h0])]
  rw [writeOthersAux_fail env (nextIdx displays p) (offsX displays p)
    (offsY displays p) displays 0 1 f [targetCall displays p] ?_ hok hfail]
  · rw [plannedMoves_from_zero]
    simp
  · rw [plannedMoves_from_zero, moveCalls_length displays p hN]
    exact hf

theorem run_writes_shape (displays : List Display) (env : Env) :
    (SwitchPrimaryToNext displays env).writes = [] ∨
    ∃ p n, currentPrimaryIdx displays = some p ∧ 2 ≤ displays.length ∧
      (SwitchPrimaryToNext displays env).writes =
        targetCall displays p :: (moveCalls displays p).take n := by
  by_cases hne : displays.isEmpty
  · left; simp [SwitchPrimaryToNext, hne]
  · rcases hcp : currentPrimaryIdx displays with _ | p
    · left; simp [SwitchPrimaryToNext, hne, hcp]
    · by_cases hlen : displays.length = 1
      · left; simp [SwitchPrimaryToNext, hne, hcp, hlen]
      · have hN : 2 ≤ displays.length := by
          have h0 : displays ≠ [] := by simpa [List.isEmpty_iff] using hne
          have h1 : 0 < displays.length := List.length_pos.mpr h0
          omega
        right
        rw [run_unfold displays env p hcp hN]
        by_cases hw : env.writeRes 0 ≠ DISP_CHANGE_SUCCESSFUL
        · exact ⟨p, 0, rfl, hN, by rw [if_pos hw]; simp⟩
        · rw [if_neg hw]
          obtain ⟨n, hn⟩ := writeOthersAux_writes_take env (nextIdx displays p)
            (offsX displays p) (offsY displays p) displays 0 1 [targetCall displays p]
          rw [plannedMoves_from_zero] at hn
          exact ⟨p, n, rfl, hN, by rw [hn]; simp⟩

theorem run_exit_le (displays : List Display) (env : Env) :
    (SwitchPrimaryToNext displays env).exitCode ≤ 5 := by
  by_cases hne : displays.isEmpty
  · simp [SwitchPrimaryToNext, hne]
  · rcases hcp : currentPrimaryIdx displays with _ | p
    · simp [SwitchPrimaryToNext, hne, hcp]
    · by_cases hlen : displays.length = 1
      · simp [SwitchPrimaryToNext, hne, hcp, hlen]
      · have hN : 2 ≤ displays.length := by
          have h0 : displays ≠ [] := by simpa [List.isEmpty_iff] using hne
          have h1 : 0 < displays.length := List.length_pos.mpr h0
          omega
        rw [run_unfold displays env p hcp hN]
        by_cases hw : env.writeRes 0 ≠ DISP_CHANGE_SUCCESSFUL
        · rw [if_pos hw]; simp
        · rw [if_neg hw]
          rcases writeOthersAux_exit env (nextIdx displays p) (offsX displays p)
            (offsY displays p) displays 0 1 [targetCall displays p] with h | h | h <;>
            omega

theorem getD_map_of_lt {α β : Type} [Inhabited α] [Inhabited β] (f : α → β)
    (l : List α) (j : Nat) (hj : j < l.length) :
    (l.map f).getD j default = f (l.getD j default) := by
  have h := List.getElem?_eq_getElem (l := l) (n := j) hj
  simp [List.getD_eq_getElem?_getD, List.getElem?_map, h]

theorem run_single (displays : List Display) (env : Env) (p : Nat)
    (h1 : displays.length = 1) (hp : currentPrimaryIdx displays = some p) :
    SwitchPrimaryToNext displays env =
      { exitCode := 0, writes := [], applyInvoked := false } := by
  have hne : displays.isEmpty = false := by
    cases displays with
    | nil => simp at h1
    | cons a l => simp
  simp [SwitchPrimaryToNext, hne, hp, h1]

/-- Claim C1: for every topology with N ≥ 2 displays in enumeration order and
exactly one display flagged primary, at index p, the rotation selector
chooses target index (p + 1) mod N: the display at that index receives the
run's first write, the CDS_SET_PRIMARY one. -/
theorem claim1_target_is_circular_successor (displays : List Display) (env : Env)
    (p : Nat) (hN : 2 ≤ displays.length) (hp : p < displays.length)
    (hprim : (displays.getD p default).isPrimary = true)
    (huniq : ∀ j, j < displays.length →
      (displays.getD j default).isPrimary = true → j = p) :
    currentPrimaryIdx displays = some p ∧
    (SwitchPrimaryToNext displays env).writes.head? =
      some (stagedCall true (displays.getD ((p + 1) % displays.length) default)
        (wrap32 (-(displays.getD ((p + 1) % displays.length) default).dm.position.x))
        (wrap32 (-(displays.getD ((p + 1) % displays.length) default).dm.position.y))) := by
  have hcp := currentPrimaryIdx_of_unique displays p hp hprim huniq
  refine ⟨hcp, ?_⟩
  rw [run_unfold displays env p hcp hN]
  by_cases hw : env.writeRes 0 ≠ DISP_CHANGE_SUCCESSFUL
  · rw [if_pos hw]; rfl
  · rw [if_neg hw]
    obtain ⟨n, hn⟩ := writeOthersAux_writes_take env (nextIdx displays p)
      (offsX displays p) (offsY displays p) displays 0 1 [targetCall displays p]
    have : (writeOthersAux env (nextIdx displays p) (offsX displays p)
        (offsY displays p) displays 0 1 [targetCall displays p]).writes.head? =
        some (targetCall displays p) := by
      rw [hn]; rfl
    rw [this]; rfl

theorem claim1_witness :
    (∀ j, j < ([exA, exB] : List Display).length →
      (([exA, exB] : List Display).getD j default).isPrimary = true → j = 0) ∧
    (currentPrimaryIdx [exA, exB] = some 0 ∧
      (SwitchPrimaryToNext [exA, exB] envOK).writes.head? =
        some (stagedCall true (([exA, exB] : List Display).getD ((0 + 1) % ([exA, exB] : List Display).length) default)
          (wrap32 (-(([exA, exB] : List Display).getD ((0 + 1) % ([exA, exB] : List Display).length) default).dm.position.x))
          (wrap32 (-(([exA, exB] : List Display).getD ((0 + 1) % ([exA, exB] : List Display).length) default).dm.position.y)))) :=
  ⟨by decide, claim1_target_is_circular_successor [exA, exB] envOK 0 (by decide)
    (by decide) (by decide) (by decide)⟩

/-- Claim C2 is false as stated: a topology with exactly one display whose
primary flag is clear is rejected with exit code 2 (the primary search runs
before the single-display check), not reported as success. -/
theorem claim2_counterexample :
    ([exB] : List Display).length = 1 ∧
    (SwitchPrimaryToNext [exB] envOK).exitCode ≠ 0 := by
  decide

/-- Claim C2 (amended): for every topology with exactly one display and that
display flagged primary, the run reports success (exit status 0) and issues
zero write calls (and the final apply is never invoked). -/
theorem claim2_single_display_noop (displays : List Display) (env : Env)
    (h1 : displays.length = 1)
    (hprim : (displays.getD 0 default).isPrimary = true) :
    SwitchPrimaryToNext displays env =
      { exitCode := 0, writes := [], applyInvoked := false } := by
  have hcp : currentPrimaryIdx displays = some 0 :=
    currentPrimaryIdx_of_unique displays 0 (by omega) hprim (by omega)
  exact run_single displays env 0 h1 hcp

theorem claim2_witness :
    ([exA] : List Display).length = 1 ∧
    SwitchPrimaryToNext [exA] envOK =
      { exitCode := 0, writes := [], applyInvoked := false } :=
  ⟨by decide, claim2_single_display_noop [exA] envOK (by decide) (by decide)⟩

/-- Claim C5: when the target's write fails, the run aborts with exit code 3,
the final apply is never invoked, and the trace holds exactly one write call:
the target's — no other device is written. -/
theorem claim5_target_write_failure_aborts (displays : List Display) (env : Env)
    (p : Nat) (hN : 2 ≤ displays.length)
    (hp : currentPrimaryIdx displays = some p)
    (hfail : env.writeRes 0 ≠ DISP_CHANGE_SUCCESSFUL) :
    (SwitchPrimaryToNext displays env).exitCode = 3 ∧
    (SwitchPrimaryToNext displays env).applyInvoked = false ∧
    ∃ c, (SwitchPrimaryToNext displays env).writes = [c] ∧
      c.device = (displays.getD ((p + 1) % displays.length) default).name ∧
      c.setPrimary = true := by
  rw [run_fail3_trace displays env p hp hN hfail]
  exact ⟨rfl, rfl, targetCall displays p, rfl, rfl, rfl⟩

theorem claim5_witness :
    envFail0.writeRes 0 ≠ DISP_CHANGE_SUCCESSFUL ∧
    ((SwitchPrimaryToNext [exA, exB] envFail0).exitCode = 3 ∧
      (SwitchPrimaryToNext [exA, exB] envFail0).applyInvoked = false ∧
      ∃ c, (SwitchPrimaryToNext [exA, exB] envFail0).writes = [c] ∧
        c.device = (([exA, exB] : List Display).getD ((0 + 1) % ([exA, exB] : List Display).length) default).name ∧
        c.setPrimary = true) :=
  ⟨by decide, claim5_target_write_failure_aborts [exA, exB] envFail0 0 (by decide)
    (by decide) (by decide)⟩

/-- Claim C3: for every valid topology (N ≥ 2, exactly one primary) and every
integer starting position of the target — the offset being the LONG negation
of that position, with wraparound — a successful run stages and commits the
target at exactly (0,0), with the CDS_SET_PRIMARY flag, as the first write. -/
theorem claim3_target_committed_at_origin (displays : List Display) (env : Env)
    (p : Nat) (hN : 2 ≤ displays.length) (hp : p < displays.length)
    (hprim : (displays.getD p default).isPrimary = true)
    (huniq : ∀ j, j < displays.length →
      (displays.getD j default).isPrimary = true → j = p)
    (hw : ∀ k, k < displays.length → env.writeRes k = DISP_CHANGE_SUCCESSFUL)
    (ha : env.applyRes = DISP_CHANGE_SUCCESSFUL) :
    (SwitchPrimaryToNext displays env).exitCode = 0 ∧
    (SwitchPrimaryToNext displays env).applyInvoked = true ∧
    ∃ c callsRest, (SwitchPrimaryToNext displays env).writes = c :: callsRest ∧
      c.device = (displays.getD ((p + 1) % displays.length) default).name ∧
      c.setPrimary = true ∧
      c.dm.position.x = 0 ∧ c.dm.position.y = 0 := by
  have hcp := currentPrimaryIdx_of_unique displays p hp hprim huniq
  rw [run_success_trace displays env p hcp hN hw]
  refine ⟨by simp [ha], rfl, targetCall displays p, moveCalls displays p, rfl,
    rfl, rfl, ?_, ?_⟩
  · exact wrap32_add_neg_self (theTarget displays p).dm.position.x
  · exact wrap32_add_neg_self (theTarget displays p).dm.position.y

theorem claim3_witness :
    (∀ k, k < ([exA, exB, exC] : List Display).length →
      envOK.writeRes k = DISP_CHANGE_SUCCESSFUL) ∧
    ((SwitchPrimaryToNext [exA, exB, exC] envOK).exitCode = 0 ∧
      (SwitchPrimaryToNext [exA, exB, exC] envOK).applyInvoked = true ∧
      ∃ c callsRest,
        (SwitchPrimaryToNext [exA, exB, exC] envOK).writes = c :: callsRest ∧
        c.device = (([exA, exB, exC] : List Display).getD
          ((0 + 1) % ([exA, exB, exC] : List Display).length) default).name ∧
        c.setPrimary = true ∧
        c.dm.position.x = 0 ∧ c.dm.position.y = 0) :=
  ⟨fun k _ => rfl,
    claim3_target_committed_at_origin [exA, exB, exC] envOK 0 (by decide)
      (by decide) (by decide) (by decide) (fun k _ => rfl) rfl⟩

/-- Claim C4: for every valid topology, after a successful run the non-target
writes are issued in original enumeration order skipping the target (write
j + 1 goes to the j-th element of the snapshot with the target erased); each
such display's new position is its original position plus the offset
-(target's original position) in LONG arithmetic; hence the wrapped relative
offset between any two non-target displays is unchanged. -/
theorem claim4_translation_invariance (displays : List Display) (env : Env)
    (p : Nat) (hN : 2 ≤ displays.length) (hp : p < displays.length)
    (hprim : (displays.getD p default).isPrimary = true)
    (huniq : ∀ j, j < displays.length →
      (displays.getD j default).isPrimary = true → j = p)
    (hw : ∀ k, k < displays.length → env.writeRes k = DISP_CHANGE_SUCCESSFUL)
    (ha : env.applyRes = DISP_CHANGE_SUCCESSFUL) :
    (SwitchPrimaryToNext displays env).exitCode = 0 ∧
    (SwitchPrimaryToNext displays env).writes.length = displays.length ∧
    (∀ j, j < (displays.eraseIdx ((p + 1) % displays.length)).length →
      ((SwitchPrimaryToNext displays env).writes.getD (j + 1) default).device =
        ((displays.eraseIdx ((p + 1) % displays.length)).getD j default).name ∧
      ((SwitchPrimaryToNext displays env).writes.getD (j + 1) default).dm.position.x =
        wrap32 (((displays.eraseIdx ((p + 1) % displays.length)).getD j default).dm.position.x +
          -(displays.getD ((p + 1) % displays.length) default).dm.position.x) ∧
      ((SwitchPrimaryToNext displays env).writes.getD (j + 1) default).dm.position.y =
        wrap32 (((displays.eraseIdx ((p + 1) % displays.length)).getD j default).dm.position.y +
          -(displays.getD ((p + 1) % displays.length) default).dm.position.y)) ∧
    (∀ j1 j2, j1 < (displays.eraseIdx ((p + 1) % displays.length)).length →
      j2 < (displays.eraseIdx ((p + 1) % displays.length)).length →
      wrap32 (((SwitchPrimaryToNext displays env).writes.getD (j1 + 1) default).dm.position.x -
        ((SwitchPrimaryToNext displays env).writes.getD (j2 + 1) default).dm.position.x) =
      wrap32 (((displays.eraseIdx ((p + 1) % displays.length)).getD j1 default).dm.position.x -
        ((displays.eraseIdx ((p + 1) % displays.length)).getD j2 default).dm.position.x) ∧
      wrap32 (((SwitchPrimaryToNext displays env).writes.getD (j1 + 1) default).dm.position.y -
        ((SwitchPrimaryToNext displays env).writes.getD (j2 + 1) default).dm.position.y) =
      wrap32 (((displays.eraseIdx ((p + 1) % displays.length)).getD j1 default).dm.position.y -
        ((displays.eraseIdx ((p + 1) % displays.length)).getD j2 default).dm.position.y)) := by
  have hcp := currentPrimaryIdx_of_unique displays p hp hprim huniq
  rw [run_success_trace displays env p hcp hN hw]
  have hmain : ∀ j, j < (displays.eraseIdx ((p + 1) % displays.length)).length →
      (targetCall displays p :: moveCalls displays p).getD (j + 1) default =
        stagedCall false
          ((displays.eraseIdx ((p + 1) % displays.length)).getD j default)
          (offsX displays p) (offsY displays p) := by
    intro j hj
    rw [List.getD_cons_succ, moveCalls]
    exact getD_map_of_lt _ _ j hj
  refine ⟨by simp [ha], ?_, ?_, ?_⟩
  · simp only [List.length_cons]
    rw [moveCalls_length displays p hN]
    omega
  · intro j hj
    rw [hmain j hj]
    refine ⟨rfl, ?_, ?_⟩
    · show wrap32 (_ + offsX displays p) = _
      rw [offsX, wrap32_add_wrap]
      rfl
    · show wrap32 (_ + offsY displays p) = _
      rw [offsY, wrap32_add_wrap]
      rfl
  · intro j1 j2 hj1 hj2
    rw [hmain j1 hj1, hmain j2 hj2]
    constructor
    · show wrap32 (wrap32 (_ + offsX displays p) - wrap32 (_ + offsX displays p)) = _
      exact wrap32_sub_of_shift _ _ _
    · show wrap32 (wrap32 (_ + offsY displays p) - wrap32 (_ + offsY displays p)) = _
      exact wrap32_sub_of_shift _ _ _

theorem claim4_witness :
    (∀ k, k < ([exA, exB, exC] : List Display).length →
      envOK.writeRes k = DISP_CHANGE_SUCCESSFUL) ∧
    ((SwitchPrimaryToNext [exA, exB, exC] envOK).exitCode = 0 ∧
      (SwitchPrimaryToNext [exA, exB, exC] envOK).writes.length =
        ([exA, exB, exC] : List Display).length) :=
  ⟨fun k _ => rfl,
    (claim4_translation_invariance [exA, exB, exC] envOK 0 (by decide) (by decide)
      (by decide) (by decide) (fun k _ => rfl) rfl).1,
    (claim4_translation_invariance [exA, exB, exC] envOK 0 (by decide) (by decide)
      (by decide) (by decide) (fun k _ => rfl) rfl).2.1⟩

/-- Claim C6: when the target's write succeeded and the write for the f-th
non-target device is the first failing one, the run aborts with exit code 4,
the final apply is never invoked, and the trace is exactly the target's write
followed by the first f + 1 repositioning writes (so every earlier device,
the target included, and the failing device itself had their write issued,
and no later device is written). -/
theorem claim6_other_write_failure_aborts (displays : List Display) (env : Env)
    (p f : Nat) (hN : 2 ≤ displays.length)
    (hp : currentPrimaryIdx displays = some p)
    (h0 : env.writeRes 0 = DISP_CHANGE_SUCCESSFUL)
    (hf : f < displays.length - 1)
    (hok : ∀ j, j < f → env.writeRes (1 + j) = DISP_CHANGE_SUCCESSFUL)
    (hfail : env.writeRes (1 + f) ≠ DISP_CHANGE_SUCCESSFUL) :
    (SwitchPrimaryToNext displays env).exitCode = 4 ∧
    (SwitchPrimaryToNext displays env).applyInvoked = false ∧
    (SwitchPrimaryToNext displays env).writes =
      targetCall displays p :: (moveCalls displays p).take (f + 1) ∧
    (SwitchPrimaryToNext displays env).writes.length = f + 2 := by
  rw [run_fail4_trace displays env p f hp hN h0 hf hok hfail]
  refine ⟨rfl, rfl, rfl, ?_⟩
  simp only [List.length_cons, List.length_take]
  rw [moveCalls_length displays p hN]
  omega

theorem claim6_witness :
    envFailAt2.writeRes (1 + 1) ≠ DISP_CHANGE_SUCCESSFUL ∧
    ((SwitchPrimaryToNext [exA, exB, exC] envFailAt2).exitCode = 4 ∧
      (SwitchPrimaryToNext [exA, exB, exC] envFailAt2).applyInvoked = false ∧
      (SwitchPrimaryToNext [exA, exB, exC] envFailAt2).writes =
        targetCall [exA, exB, exC] 0 :: (moveCalls [exA, exB, exC] 0).take (1 + 1) ∧
      (SwitchPrimaryToNext [exA, exB, exC] envFailAt2).writes.length = 1 + 2) :=
  ⟨by decide,
    claim6_other_write_failure_aborts [exA, exB, exC] envFailAt2 0 1 (by decide)
      (by decide) (by decide) (by decide)
      (by decide) (by decide)⟩

/-- Claim C7: the process exit status is the ordinal code of the outcome —
always at most 5, with 1 for an empty topology, 2 when no display is flagged
primary, 0 for the single-display no-op, 3 when the target's write fails, 4
when a non-target write is the first failure, 5 when only the final apply
fails, and 0 on full success. -/
theorem claim7_exit_status_taxonomy (displays : List Display) (env : Env) :
    (SwitchPrimaryToNext displays env).exitCode ≤ 5 ∧
    (displays = [] →
      SwitchPrimaryToNext displays env =
        { exitCode := 1, writes := [], applyInvoked := false }) ∧
    (displays ≠ [] → currentPrimaryIdx displays = none →
      SwitchPrimaryToNext displays env =
        { exitCode := 2, writes := [], applyInvoked := false }) ∧
    (displays.length = 1 → (∃ p, currentPrimaryIdx displays = some p) →
      SwitchPrimaryToNext displays env =
        { exitCode := 0, writes := [], applyInvoked := false }) ∧
    (∀ p, 2 ≤ displays.length → currentPrimaryIdx displays = some p →
      env.writeRes 0 ≠ DISP_CHANGE_SUCCESSFUL →
      (SwitchPrimaryToNext displays env).exitCode = 3) ∧
    (∀ p f, 2 ≤ displays.length → currentPrimaryIdx displays = some p →
      env.writeRes 0 = DISP_CHANGE_SUCCESSFUL → f < displays.length - 1 →
      (∀ j, j < f → env.writeRes (1 + j) = DISP_CHANGE_SUCCESSFUL) →
      env.writeRes (1 + f) ≠ DISP_CHANGE_SUCCESSFUL →
      (SwitchPrimaryToNext displays env).exitCode = 4) ∧
    (∀ p, 2 ≤ displays.length → currentPrimaryIdx displays = some p →
      (∀ k, k < displays.length → env.writeRes k = DISP_CHANGE_SUCCESSFUL) →
      env.applyRes ≠ DISP_CHANGE_SUCCESSFUL →
      (SwitchPrimaryToNext displays env).exitCode = 5) ∧
    (∀ p, 2 ≤ displays.length → currentPrimaryIdx displays = some p →
      (∀ k, k < displays.length → env.writeRes k = DISP_CHANGE_SUCCESSFUL) →
      env.applyRes = DISP_CHANGE_SUCCESSFUL →
      (SwitchPrimaryToNext displays env).exitCode = 0) := by
  refine ⟨run_exit_le displays env, ?_, ?_, ?_, ?_, ?_, ?_, ?_⟩
  · intro h
    subst h
    simp [SwitchPrimaryToNext]
  · intro hne hnone
    have hne' : displays.isEmpty = false := by simpa [List.isEmpty_iff] using hne
    simp [SwitchPrimaryToNext, hne', hnone]
  · intro h1 hex
    obtain ⟨p, hp⟩ := hex
    exact run_single displays env p h1 hp
  · intro p hN hp hfail
    rw [run_fail3_trace displays env p hp hN hfail]
  · intro p f hN hp h0 hf hok hfail
    rw [run_fail4_trace displays env p f hp hN h0 hf hok hfail]
  · intro p hN hp hw ha
    rw [run_success_trace displays env p hp hN hw]
    simp [ha]
  · intro p hN hp hw ha
    rw [run_success_trace displays env p hp hN hw]
    simp [ha]

theorem claim7_witness :
    SwitchPrimaryToNext [] envOK =
      { exitCode := 1, writes := [], applyInvoked := false } :=
  (claim7_exit_status_taxonomy [] envOK).2.1 rfl

/-- Claim C8: the topology reader's output is exactly the enumerated devices
that are attached to the desktop, are not mirroring drivers and whose
current-settings read succeeded, in enumeration order; a device with a failed
settings read is merely skipped (non-fatally) and enumeration continues. -/
theorem claim8_enumeration_filter (raw : List RawDevice) :
    EnumerateDisplays raw = (raw.filter keptDevice).map toDisplay := by
  induction raw with
  | nil => rfl
  | cons d restDevs ih =>
    by_cases h1 : d.stateFlags &&& DISPLAY_DEVICE_ATTACHED_TO_DESKTOP = 0
    · have hk : keptDevice d = false := by simp [keptDevice, h1]
      rw [EnumerateDisplays]
      simp [h1, List.filter_cons, hk, ih]
    · by_cases h2 : d.stateFlags &&& DISPLAY_DEVICE_MIRRORING_DRIVER = 0
      · rcases hs : d.settings with _ | dm
        · have hk : keptDevice d = false := by simp [keptDevice, hs]
          rw [EnumerateDisplays]
          simp [h1, h2, hs, List.filter_cons, hk, ih]
        · have hk : keptDevice d = true := by simp [keptDevice, h1, h2, hs]
          rw [EnumerateDisplays]
          simp [h1, h2, hs, List.filter_cons, hk, ih, toDisplay]
      · have hk : keptDevice d = false := by simp [keptDevice, h2]
        rw [EnumerateDisplays]
        simp [h1, h2, List.filter_cons, hk, ih]

/-- Claim C9: with more than one display flagged primary, the run reports no
error for that: the first flagged display in enumeration order is taken as
the current primary (every display before it is unflagged) and the run
proceeds normally — exit codes 1 and 2 are impossible and the first write
goes to that display's circular successor. -/
theorem claim9_first_primary_wins (displays : List Display) (env : Env)
    (i j : Nat) (hij : i < j) (hj : j < displays.length)
    (hpi : (displays.getD i default).isPrimary = true)
    (_hpj : (displays.getD j default).isPrimary = true) :
    ∃ p, currentPrimaryIdx displays = some p ∧ p ≤ i ∧
      (displays.getD p default).isPrimary = true ∧
      (∀ q, q < p → (displays.getD q default).isPrimary = false) ∧
      (SwitchPrimaryToNext displays env).exitCode ≠ 1 ∧
      (SwitchPrimaryToNext displays env).exitCode ≠ 2 ∧
      (SwitchPrimaryToNext displays env).writes.head? =
        some (targetCall displays p) := by
  obtain ⟨p, hp, hple⟩ := currentPrimaryIdx_le displays i (by omega) hpi
  obtain ⟨hplt, hpprim, hleast⟩ := currentPrimaryIdx_spec displays p hp
  have hN : 2 ≤ displays.length := by omega
  have hhead : (SwitchPrimaryToNext displays env).writes.head? =
      some (targetCall displays p) := by
    rw [run_unfold displays env p hp hN]
    by_cases hw : env.writeRes 0 ≠ DISP_CHANGE_SUCCESSFUL
    · rw [if_pos hw]; rfl
    · rw [if_neg hw]
      obtain ⟨n, hn⟩ := writeOthersAux_writes_take env (nextIdx displays p)
        (offsX displays p) (offsY displays p) displays 0 1 [targetCall displays p]
      rw [hn]; rfl
  have hexit : (SwitchPrimaryToNext displays env).exitCode ≠ 1 ∧
      (SwitchPrimaryToNext displays env).exitCode ≠ 2 := by
    rw [run_unfold displays env p hp hN]
    by_cases hw : env.writeRes 0 ≠ DISP_CHANGE_SUCCESSFUL
    · rw [if_pos hw]; exact ⟨by simp, by simp⟩
    · rw [if_neg hw]
      rcases writeOthersAux_exit env (nextIdx displays p) (offsX displays p)
        (offsY displays p) displays 0 1 [targetCall displays p] with h | h | h <;>
        exact ⟨by omega, by omega⟩
  exact ⟨p, hp, hple, hpprim, hleast, hexit.1, hexit.2, hhead⟩

theorem claim9_witness :
    (([exA, exD, exB] : List Display).getD 1 default).isPrimary = true ∧
    ∃ p, currentPrimaryIdx [exA, exD, exB] = some p ∧ p ≤ 0 ∧
      (([exA, exD, exB] : List Display).getD p default).isPrimary = true ∧
      (∀ q, q < p → (([exA, exD, exB] : List Display).getD q default).isPrimary = false) ∧
      (SwitchPrimaryToNext [exA, exD, exB] envOK).exitCode ≠ 1 ∧
      (SwitchPrimaryToNext [exA, exD, exB] envOK).exitCode ≠ 2 ∧
      (SwitchPrimaryToNext [exA, exD, exB] envOK).writes.head? =
        some (targetCall [exA, exD, exB] p) :=
  ⟨by decide,
    claim9_first_primary_wins [exA, exD, exB] envOK 0 1 (by decide) (by decide)
      (by decide) (by decide)⟩

/-- Claim C10 is false as stated: the staged settings are not always the
snapshot settings with only the position changed — the write also OR-s
DM_POSITION into the field mask.  Concretely, for a target whose snapshot
mask lacks DM_POSITION, the staged DEVMODEW differs from the snapshot even
after allowing its position to be anything. -/
theorem claim10_counterexample :
    ((SwitchPrimaryToNext [exA, exZ] envOK).writes.getD 0 default).dm ≠
      { (([exA, exZ] : List Display).getD 1 default).dm with
        position :=
          ((SwitchPrimaryToNext [exA, exZ] envOK).writes.getD 0 default).dm.position } := by
  decide

/-- Claim C10 (amended): every write call of any run addresses a display of
the snapshot and stages that display's snapshot settings with the position
rebased and DM_POSITION OR-ed into the field mask: all other settings fields
(`rest`: resolution, orientation, refresh rate, ...) are written back exactly
as read; every write carries CDS_UPDATEREGISTRY and CDS_NORESET, and the
first write (the target's) is the only one carrying CDS_SET_PRIMARY. -/
theorem claim10_frame_effect (displays : List Display) (env : Env) (k : Nat)
    (hk : k < (SwitchPrimaryToNext displays env).writes.length) :
    ∃ d, d ∈ displays ∧
      ((SwitchPrimaryToNext displays env).writes.getD k default).device = d.name ∧
      ((SwitchPrimaryToNext displays env).writes.getD k default).dm.rest = d.dm.rest ∧
      ((SwitchPrimaryToNext displays env).writes.getD k default).dm.dmFields =
        d.dm.dmFields ||| DM_POSITION ∧
      ((SwitchPrimaryToNext displays env).writes.getD k default).updateRegistry = true ∧
      ((SwitchPrimaryToNext displays env).writes.getD k default).noReset = true ∧
      (((SwitchPrimaryToNext displays env).writes.getD k default).setPrimary = true ↔
        k = 0) := by
  rcases run_writes_shape displays env with hsh | ⟨p, n, hp, hN, hsh⟩
  · rw [hsh] at hk
    simp at hk
  · rw [hsh] at hk ⊢
    match k with
    | 0 =>
      refine ⟨theTarget displays p, ?_, rfl, rfl, rfl, rfl, rfl,
        by simp [targetCall, stagedCall]⟩
      exact getD_mem_of_lt displays (nextIdx displays p) (nextIdx_lt displays p hN)
    | k' + 1 =>
      rw [List.getD_cons_succ]
      simp only [List.length_cons, Nat.add_lt_add_iff_right] at hk
      have hmem : ((moveCalls displays p).take n).getD k' default ∈
          (moveCalls displays p).take n := getD_mem_of_lt _ k' hk
      have hmem2 : ((moveCalls displays p).take n).getD k' default ∈
          plannedMoves (nextIdx displays p) (offsX displays p) (offsY displays p)
            displays 0 := by
        rw [plannedMoves_from_zero]
        exact List.take_subset n _ hmem
      obtain ⟨d, hd, hcd⟩ := plannedMoves_mem (nextIdx displays p)
        (offsX displays p) (offsY displays p) displays 0 _ hmem2
      rw [hcd]
      exact ⟨d, hd, rfl, rfl, rfl, rfl, rfl, by simp [stagedCall]⟩

theorem claim10_witness :
    0 < (SwitchPrimaryToNext [exA, exB] envOK).writes.length ∧
    ∃ d, d ∈ ([exA, exB] : List Display) ∧
      ((SwitchPrimaryToNext [exA, exB] envOK).writes.getD 0 default).device = d.name ∧
      ((SwitchPrimaryToNext [exA, exB] envOK).writes.getD 0 default).dm.rest = d.dm.rest ∧
      ((SwitchPrimaryToNext [exA, exB] envOK).writes.getD 0 default).dm.dmFields =
        d.dm.dmFields ||| DM_POSITION ∧
      ((SwitchPrimaryToNext [exA, exB] envOK).writes.getD 0 default).updateRegistry = true ∧
      ((SwitchPrimaryToNext [exA, exB] envOK).writes.getD 0 default).noReset = true ∧
      (((SwitchPrimaryToNext [exA, exB] envOK).writes.getD 0 default).setPrimary = true ↔
        (0 : Nat) = 0) :=
  ⟨by decide, claim10_frame_effect [exA, exB] envOK 0 (by decide)⟩
